import Mathlib

/-!
Verification development for the ServerShelf dashboard
(`src/unnamed/part_001`, the React dashboard component, and
`src/public/config.js`, the configuration document).

JavaScript strings are embedded as `List Char`.  All operations are
translated from the source: the search loop (`searchResults`), the
`config.js` hostname-normalization loop, the `loadConfig` script
handlers, `copyToClipboard`, `highlightText`, and the render gating of
the component.
-/

namespace ServerShelf

/-- JavaScript strings are modelled as lists of characters. -/
abbrev JStr := List Char

/-- Builds a `JStr` from a Lean string literal. -/
def js (s : String) : JStr := s.data

/-- `String.prototype.toLowerCase`, per character. -/
def lowerJS (s : JStr) : JStr := s.map Char.toLower

/-- `hay.includes(needle)` of JavaScript: substring containment
(the empty needle is contained in every string). -/
def includesJS (needle : JStr) : JStr → Bool
  | [] => needle.isEmpty
  | c :: t => needle.isPrefixOf (c :: t) || includesJS needle t

/-- Code points treated as whitespace by `String.prototype.trim`
(ECMAScript WhiteSpace and LineTerminator code points). -/
def wsCodes : List Nat :=
  [9, 10, 11, 12, 13, 32, 160, 0x1680, 0x2000, 0x2001, 0x2002, 0x2003,
   0x2004, 0x2005, 0x2006, 0x2007, 0x2008, 0x2009, 0x200A, 0x2028,
   0x2029, 0x202F, 0x205F, 0x3000, 0xFEFF]

/-- Whether a character is JavaScript whitespace. -/
def jsWS (c : Char) : Bool := wsCodes.contains c.toNat

/-- `String.prototype.trim`: strip leading and trailing whitespace. -/
def trimJS (s : JStr) : JStr :=
  ((s.dropWhile jsWS).reverse.dropWhile jsWS).reverse

/-! ## Data model (the `interface` declarations of the dashboard component) -/

/-- A `Service` record: one addressable endpoint
(`name`, `url`, `description` required; `alt_url`, `icon` optional). -/
structure Service where
  name : JStr
  url : JStr
  description : JStr
  alt_url : Option JStr := none
  icon : Option JStr := none
deriving DecidableEq

/-- The `tooltip` sub-record of a tab. -/
structure Tooltip where
  title : JStr
  description : JStr
  location : JStr
  specs : JStr
deriving DecidableEq

/-- A `Tab` record: one server grouping with its ordered services. -/
structure Tab where
  name : JStr
  key : JStr
  id : JStr
  mainUrl : JStr
  icon : JStr
  tooltip : Tooltip
  services : List Service
deriving DecidableEq

/-- The root configuration document: an ordered sequence of tabs. -/
structure Config where
  tabs : List Tab
deriving DecidableEq

/-- One entry of the search-result list
(`service`, `serverName`, `serverKey`). -/
structure SearchResult where
  service : Service
  serverName : JStr
  serverKey : JStr
deriving DecidableEq

/-! ## Search (`searchResults`, dashboard component lines 323-347) -/

/-- The per-service match test of the search loop: the query (already
lowercased by the caller, as in the source) is searched in the
lowercased `name`, `description`, `url` and, when present, `alt_url`
(`service.alt_url?.toLowerCase().includes(query)`: an absent `alt_url`
yields `undefined`, which is falsy). -/
def serviceMatches (query : JStr) (s : Service) : Bool :=
  includesJS query (lowerJS s.name) ||
  includesJS query (lowerJS s.description) ||
  includesJS query (lowerJS s.url) ||
  (match s.alt_url with
   | some a => includesJS query (lowerJS a)
   | none => false)

/-- The `searchResults` memo: empty when the trimmed query is empty,
otherwise a double `forEach` over tabs and services pushing every
matching service together with its tab's name and key. -/
def searchResults (cfg : Config) (q : JStr) : List SearchResult :=
  if (trimJS q).isEmpty then []
  else
    let query := lowerJS q
    cfg.tabs.foldl
      (fun acc tab =>
        tab.services.foldl
          (fun acc2 s =>
            if serviceMatches query s then
              acc2 ++ [{ service := s, serverName := tab.name, serverKey := tab.key }]
            else acc2)
          acc)
      []

/-- Case-insensitive substring test of a query against one field,
written the way the specification phrases it. -/
def fieldCI (q field : JStr) : Bool := includesJS (lowerJS q) (lowerJS field)

/-- The specification's match predicate: at least one of `name`,
`description`, `url`, `alt_url` contains the query case-insensitively
(OR across fields; an absent `alt_url` never matches). -/
def matchesAnyField (q : JStr) (s : Service) : Prop :=
  fieldCI q s.name = true ∨ fieldCI q s.description = true ∨
  fieldCI q s.url = true ∨ ∃ a, s.alt_url = some a ∧ fieldCI q a = true

/-- Boolean form of `matchesAnyField`. -/
def specMatch (q : JStr) (s : Service) : Bool :=
  fieldCI q s.name || fieldCI q s.description || fieldCI q s.url ||
  (match s.alt_url with
   | some a => fieldCI q a
   | none => false)

/-- Concatenation of per-tab result lists in document order, used to
state the specification's ordering requirement (tabs in document
order, then services in document order within each tab). -/
def flatCollect (F : Tab → List SearchResult) : List Tab → List SearchResult
  | [] => []
  | t :: ts => F t ++ flatCollect F ts

/-- Specification-shaped search: keep, tab by tab and service by
service in document order, exactly the services matching the query. -/
def searchSpec (cfg : Config) (q : JStr) : List SearchResult :=
  flatCollect
    (fun t =>
      (t.services.filter (specMatch q)).map
        (fun s => { service := s, serverName := t.name, serverKey := t.key }))
    cfg.tabs

/-! ## Hostname normalization (`src/public/config.js` lines 183-203) -/

/-- The literal host token looked for by the normalization loop. -/
def localhostStr : JStr := js "localhost"

/-- `String.prototype.replace` with a string pattern: replaces only the
first occurrence of `pat`, leaving the string unchanged when `pat`
does not occur. -/
def replaceFirst (pat repl : JStr) : JStr → JStr
  | [] => if pat.isEmpty then repl else []
  | c :: t =>
    if pat.isPrefixOf (c :: t) then repl ++ List.drop pat.length (c :: t)
    else c :: replaceFirst pat repl t

/-- Fuel-driven worker for `replaceAllSpec`; one unit of fuel is spent
per step and at least one character is consumed per step, so any fuel
of at least the string's length is enough. -/
def replaceAllFuel (pat repl : JStr) : Nat → JStr → JStr
  | _, [] => []
  | 0, s => s
  | Nat.succ n, c :: t =>
    if pat ≠ [] ∧ pat.isPrefixOf (c :: t) then
      repl ++ replaceAllFuel pat repl n (List.drop pat.length (c :: t))
    else c :: replaceAllFuel pat repl n t

/-- Replacement of every occurrence of `pat`, written from the
specification's words ("normalize every occurrence of the literal host
token") to compare against what the code computes. -/
def replaceAllSpec (pat repl s : JStr) : JStr := replaceAllFuel pat repl s.length s

/-- One URL field of the normalization loop:
`if (u.includes("localhost")) u = u.replace("localhost", currentHost)`. -/
def normalizeUrl (host u : JStr) : JStr :=
  if includesJS localhostStr u then replaceFirst localhostStr host u else u

/-- The normalization loop applied to one service (`url` and, when
present, `alt_url`). -/
def normalizeService (host : JStr) (s : Service) : Service :=
  { s with url := normalizeUrl host s.url,
           alt_url := s.alt_url.map (normalizeUrl host) }

/-- The normalization loop applied to one tab (`mainUrl` and every
service). -/
def normalizeTab (host : JStr) (t : Tab) : Tab :=
  { t with mainUrl := normalizeUrl host t.mainUrl,
           services := t.services.map (normalizeService host) }

/-- The whole `config.js` normalization loop over
`window.dashboardConfig.tabs`. -/
def normalizeConfig (host : JStr) (cfg : Config) : Config :=
  { tabs := cfg.tabs.map (normalizeTab host) }

/-! ## View state and the `loadConfig` handlers (component lines 71-136) -/

/-- The component's state hooks: `config`, `loading`, `error`,
`activeTab`, `copiedUrl`, `mounted` (the hooks driving layout and
theming are presentation-only and omitted). -/
structure DashState where
  config : Option Config
  loading : Bool
  error : Option JStr
  activeTab : JStr
  copiedUrl : Option JStr
  mounted : Bool
deriving DecidableEq

/-- The `useState` initial values (lines 72-80). -/
def initialState : DashState :=
  { config := none, loading := true, error := none, activeTab := [],
    copiedUrl := none, mounted := false }

/-- `initialState` after the mount effect has set `mounted` (line 151). -/
def mountedState : DashState := { initialState with mounted := true }

/-- Start of `loadConfig` (lines 88-89): `setLoading(true)`,
`setError(null)`; the script element is then (re)inserted. -/
def loadStart (s : DashState) : DashState :=
  { s with loading := true, error := none }

/-- Key of the first tab, used by `setActiveTab(tabs[0].key)` behind
the `tabs.length > 0` guard. -/
def headKey (cfg : Config) : JStr :=
  match cfg.tabs with
  | [] => []
  | t :: _ => t.key

/-- The `script.onload` handler (lines 101-119): when
`window.dashboardConfig` is present it is stored with one `setConfig`
call, the default active tab is selected when none was (`!activeTab`,
i.e. the empty string, and `tabs.length > 0`), and the promise
resolves; when absent, an error is recorded, the configuration is left
untouched and the promise rejects.  `setLoading(false)` runs in the
`finally` block on both paths.  The boolean of the pair records
whether the promise resolved. -/
def scriptOnload (s : DashState) (found : Option Config) : DashState × Bool :=
  match found with
  | some cfg =>
      ({ s with config := some cfg,
                activeTab :=
                  if s.activeTab = [] ∧ cfg.tabs ≠ [] then headKey cfg
                  else s.activeTab,
                loading := false }, true)
  | none =>
      ({ s with error := some (js "Configuration not found in config.js"),
                loading := false }, false)

/-- The `script.onerror` handler (lines 120-126): record the error,
stop loading, leave the stored configuration untouched. -/
def scriptOnerror (s : DashState) : DashState :=
  { s with error := some (js "Failed to load config.js file"),
           loading := false }

/-! ## Render gating (component lines 373-405, 530, 631-633, 796, 898, 975) -/

/-- The three top-level screens of the component. -/
inductive UI where
  | loadingView
  | errorView
  | readyView
deriving DecidableEq

/-- Top-level screen selection: `if (loading || !mounted)` the loading
screen, `if (error || !config)` the error screen, otherwise the
dashboard. -/
def uiView (s : DashState) : UI :=
  if s.loading || !s.mounted then UI.loadingView
  else if s.error.isSome || s.config.isNone then UI.errorView
  else UI.readyView

/-- `config.tabs.find((tab) => tab.key === activeTab)` (line 370). -/
def activeTabData (cfg : Config) (key : JStr) : Option Tab :=
  cfg.tabs.find? (fun t => t.key == key)

/-- What the main area shows on the ready screen. -/
inductive MainView where
  | searchView (results : List SearchResult)
  | tabContent (t : Option Tab)
deriving DecidableEq

/-- The search/tab gating of both layouts (`searchQuery ? … : …` on
mobile, `searchQuery && …` / `!searchQuery && …` on desktop): the
truthiness of the raw query string decides, i.e. any non-empty query
shows the search view. -/
def mainContent (cfg : Config) (activeKey q : JStr) : MainView :=
  if q = [] then MainView.tabContent (activeTabData cfg activeKey)
  else MainView.searchView (searchResults cfg q)

/-! ## Concurrent loads (lines 85-136 together with lines 302-320) -/

/-- Observable events of configuration loading.  `start` is a
`loadConfig` invocation.  `deliver found` is the completion of one
previously started load: the fetched script has executed (setting
`window.dashboardConfig`) and its `onload` handler runs with `found`
the value of `window.dashboardConfig` at that moment.  Removing the
previous script element (line 93) does not abort an in-flight classic
script: the browser still executes it and fires its load event, so an
older pending load can still deliver after a newer one.  `fail` is a
script `onerror`. -/
inductive LoadEvent where
  | start
  | deliver (found : Option Config)
  | fail
deriving DecidableEq

/-- Apply one load event to the component state. -/
def applyEvent (s : DashState) : LoadEvent → DashState
  | LoadEvent.start => loadStart s
  | LoadEvent.deliver found => (scriptOnload s found).1
  | LoadEvent.fail => scriptOnerror s

/-- Run a sequence of load events. -/
def runEvents (s : DashState) (es : List LoadEvent) : DashState :=
  es.foldl applyEvent s

/-! ## Clipboard (`copyToClipboard`, component lines 198-264) -/

/-- Platform facts `copyToClipboard` consults: whether
`navigator.clipboard && window.isSecureContext` holds, whether the
asynchronous `writeText` resolves, and whether
`document.execCommand("copy")` returns `true`. -/
structure ClipEnv where
  secureClipboard : Bool
  writeOk : Bool
  execCopyOk : Bool
deriving DecidableEq

/-- Outcome surfaced by `copyToClipboard` as a toast. -/
inductive CopyOutcome where
  | copied
  | copyFailed
deriving DecidableEq

/-- `copyToClipboard(url, label)`: the secure clipboard path when
available, otherwise the hidden-textarea `execCommand` fallback; any
failure is caught by the surrounding `try`/`catch`, which shows the
"Copy Failed" toast (the iOS selection juggling in the catch block
touches no component state).  On success `copiedUrl` is set to the
copied URL.  The function never throws past its own body. -/
def copyToClipboard (env : ClipEnv) (s : DashState) (url : JStr) :
    DashState × CopyOutcome :=
  if env.secureClipboard then
    if env.writeOk then ({ s with copiedUrl := some url }, CopyOutcome.copied)
    else (s, CopyOutcome.copyFailed)
  else
    if env.execCopyOk then ({ s with copiedUrl := some url }, CopyOutcome.copied)
    else (s, CopyOutcome.copyFailed)

/-! ## Match highlighting (`highlightText`, component lines 353-368) -/

/-- Validity scan for a regular-expression pattern, tracking the depth
of group parentheses: a `)` at depth zero or a dangling `(` at the end
is a syntax error.  This models the JavaScript `RegExp` constructor of
line 356 on patterns without escape sequences or character classes,
which covers the patterns built there from plain search queries. -/
def parenScan : JStr → Nat → Bool
  | [], d => decide (d = 0)
  | c :: t, d =>
    if c = '(' then parenScan t (d + 1)
    else if c = ')' then
      match d with
      | 0 => false
      | Nat.succ d' => parenScan t d'
    else parenScan t d

/-- The pattern built by `highlightText`: `new RegExp('(' + query + ')', 'gi')`. -/
def regexPattern (q : JStr) : JStr := '(' :: (q ++ [')'])

/-- Split `text` at case-insensitive occurrences of `pat`, keeping the
matched segments, as `text.split(regex)` with a capturing group does
for regex-safe patterns. -/
def splitCI (pat : JStr) : JStr → List JStr
  | [] => [[]]
  | c :: t =>
    if h : pat ≠ [] ∧ (lowerJS pat).isPrefixOf (lowerJS (c :: t)) then
      [] :: List.take pat.length (c :: t) ::
        splitCI pat (List.drop pat.length (c :: t))
    else
      match splitCI pat t with
      | [] => [[c]]
      | p :: ps => (c :: p) :: ps
termination_by s => s.length
decreasing_by
  · have h1 : 1 ≤ pat.length := by
      cases pat with
      | nil => exact absurd rfl h.1
      | cons p ps => simp
    simp only [List.length_drop, List.length_cons]
    omega
  · simp only [List.length_cons]
    omega

/-- `highlightText(text, query)`: returns the unsplit text for a
whitespace-only query; otherwise builds `new RegExp('(' + query + ')',
'gi')` — which throws a `SyntaxError` (modelled as `none`) when the
interpolated query makes the pattern invalid — and splits the text at
the matches. -/
def highlightText (text q : JStr) : Option (List JStr) :=
  if (trimJS q).isEmpty then some [text]
  else if parenScan (regexPattern q) 0 then some (splitCI q text)
  else none

/-! ## Concrete configurations used as witnesses -/

/-- Empty tooltip record. -/
def emptyTooltip : Tooltip := { title := [], description := [], location := [], specs := [] }

/-- The Plex service of the specification's search scenario. -/
def svcPlex : Service :=
  { name := js "Plex", url := js "http://x:32400", description := js "stream" }

/-- The Gitea service of the specification's search scenario. -/
def svcGitea : Service :=
  { name := js "Gitea", url := js "http://y:3000", description := js "git" }

/-- Tab `a` of the specification's search scenario. -/
def tabA : Tab :=
  { name := js "A", key := js "a", id := js "a", mainUrl := js "http://a",
    icon := js "home", tooltip := emptyTooltip, services := [svcPlex] }

/-- Tab `b` of the specification's search scenario. -/
def tabB : Tab :=
  { name := js "B", key := js "b", id := js "b", mainUrl := js "http://b",
    icon := js "server", tooltip := emptyTooltip, services := [svcGitea] }

/-- Two-tab configuration from the specification's search scenario. -/
def cfgGit : Config := { tabs := [tabA, tabB] }

/-- One-tab configuration, used as the stale load in the reload race. -/
def cfgOneTab : Config := { tabs := [tabA] }

/-- Configuration whose `tabs` sequence is present but empty. -/
def cfgEmpty : Config := { tabs := [] }

/-- A platform with no secure clipboard and a failing `execCommand`. -/
def noClipEnv : ClipEnv :=
  { secureClipboard := false, writeOk := false, execCopyOk := false }

/-! ## Helper lemmas on the string embedding -/

theorem prefixOf_append (p t : JStr) : p.isPrefixOf (p ++ t) = true := by
  induction p with
  | nil => simp [List.isPrefixOf]
  | cons x p' ih => simp [List.isPrefixOf, ih]

theorem includes_of_pre {p l : JStr} (h : p.isPrefixOf l = true) :
    includesJS p l = true := by
  cases l with
  | nil =>
    cases p with
    | nil => simp [includesJS]
    | cons x p' => simp [List.isPrefixOf] at h
  | cons c t => simp [includesJS, h]

theorem includes_append (p a b : JStr) : includesJS p (a ++ (p ++ b)) = true := by
  induction a with
  | nil => simpa using includes_of_pre (prefixOf_append p b)
  | cons c a' ih => simp [includesJS, ih]

theorem prefixOf_take {p : JStr} :
    ∀ {l : JStr} {n : Nat}, p.length ≤ n → p.isPrefixOf l = true →
      p.isPrefixOf (List.take n l) = true := by
  induction p with
  | nil => intro l n _ _; simp [List.isPrefixOf]
  | cons x p' ih =>
    intro l n hn h
    cases l with
    | nil => simp [List.isPrefixOf] at h
    | cons y l' =>
      cases n with
      | zero => simp at hn
      | succ m =>
        simp only [List.isPrefixOf, Bool.and_eq_true] at h
        simp only [List.take_succ_cons, List.isPrefixOf, Bool.and_eq_true]
        exact ⟨h.1, ih (by simpa using hn) h.2⟩

/-! ## Helper lemmas for the search loop -/

theorem foldl_pushIf {α β : Type} (p : α → Bool) (g : α → β) (l : List α) :
    ∀ acc : List β,
      l.foldl (fun a x => if p x then a ++ [g x] else a) acc =
        acc ++ (l.filter p).map g := by
  induction l with
  | nil => intro acc; simp
  | cons x xs ih =>
    intro acc
    cases hp : p x <;> simp [List.filter_cons, hp, ih]

theorem searchLoop (q : JStr) (tabs : List Tab) :
    ∀ acc : List SearchResult,
      tabs.foldl
        (fun acc tab =>
          tab.services.foldl
            (fun a s =>
              if serviceMatches (lowerJS q) s then
                a ++ [{ service := s, serverName := tab.name, serverKey := tab.key }]
              else a)
            acc)
        acc =
      acc ++
        flatCollect
          (fun t =>
            (t.services.filter (serviceMatches (lowerJS q))).map
              (fun s => { service := s, serverName := t.name, serverKey := t.key }))
          tabs := by
  induction tabs with
  | nil => intro acc; simp [flatCollect]
  | cons t ts ih =>
    intro acc
    rw [List.foldl_cons, foldl_pushIf, ih]
    simp [flatCollect]

theorem specMatch_eq (q : JStr) (s : Service) :
    serviceMatches (lowerJS q) s = specMatch q s := rfl

theorem specMatch_iff (q : JStr) (s : Service) :
    specMatch q s = true ↔ matchesAnyField q s := by
  unfold specMatch matchesAnyField
  cases h : s.alt_url <;> simp [h, Bool.or_eq_true, or_assoc]

theorem mem_flatCollect {F : Tab → List SearchResult} {l : List Tab}
    {r : SearchResult} :
    r ∈ flatCollect F l ↔ ∃ t, t ∈ l ∧ r ∈ F t := by
  induction l with
  | nil => simp [flatCollect]
  | cons t ts ih =>
    simp only [flatCollect, List.mem_append, ih, List.mem_cons]
    constructor
    · rintro (hr | ⟨t', ht', hr⟩)
      · exact ⟨t, Or.inl rfl, hr⟩
      · exact ⟨t', Or.inr ht', hr⟩
    · rintro ⟨t', ht' | ht', hr⟩
      · subst ht'; exact Or.inl hr
      · exact Or.inr ⟨t', ht', hr⟩

/-! ## Claim theorems -/

/-- Claim C1: for every configuration and non-whitespace query, the
search results are exactly the services whose `name`, `description`,
`url` or present `alt_url` contains the query case-insensitively (OR
across the fields, an absent `alt_url` never matching and never
erroring), each such service kept exactly once, listed tab by tab in
document order and service by service in document order; in particular
every returned element satisfies the predicate. -/
theorem searchResults_correct (cfg : Config) (q : JStr)
    (h : (trimJS q).isEmpty = false) :
    searchResults cfg q = searchSpec cfg q ∧
    ∀ r ∈ searchResults cfg q, matchesAnyField q r.service := by
  have hfun : serviceMatches (lowerJS q) = specMatch q :=
    funext (specMatch_eq q)
  have heq : searchResults cfg q = searchSpec cfg q := by
    unfold searchResults searchSpec
    rw [if_neg (by simp [h])]
    show cfg.tabs.foldl _ [] = _
    rw [searchLoop q cfg.tabs [], hfun]
    simp
  refine ⟨heq, ?_⟩
  intro r hr
  rw [heq] at hr
  unfold searchSpec at hr
  rw [mem_flatCollect] at hr
  obtain ⟨t, _, hrF⟩ := hr
  simp only [List.mem_map, List.mem_filter] at hrF
  obtain ⟨s, ⟨_, hmatch⟩, rfl⟩ := hrF
  exact (specMatch_iff q s).mp hmatch

/-- Witness for C1 at the specification's own scenario: the query
`"git"` is non-whitespace, and the theorem applies to `cfgGit`. -/
theorem searchResults_correct_witness :
    (trimJS (js "git")).isEmpty = false ∧
    (searchResults cfgGit (js "git") = searchSpec cfgGit (js "git") ∧
     ∀ r ∈ searchResults cfgGit (js "git"),
       matchesAnyField (js "git") r.service) :=
  ⟨by decide, searchResults_correct cfgGit (js "git") (by decide)⟩

theorem drop_len_append (l₁ l₂ : JStr) :
    List.drop l₁.length (l₁ ++ l₂) = l₂ := by
  induction l₁ with
  | nil => simp
  | cons x xs ih => simp [ih]

/-- `replaceFirst` rewrites exactly the first occurrence: if `u`
decomposes as `a ++ pat ++ b` and `pat` does not occur inside the
prefix of `u` that ends one character before `b` starts (so the shown
occurrence is the first), the result is `a ++ repl ++ b`. -/
theorem replaceFirst_at (pat repl : JStr) (hpat : pat ≠ []) :
    ∀ a b : JStr,
      includesJS pat (List.take (a.length + pat.length - 1) (a ++ (pat ++ b))) =
        false →
      replaceFirst pat repl (a ++ (pat ++ b)) = a ++ (repl ++ b) := by
  intro a
  induction a with
  | nil =>
    intro b _
    simp only [List.nil_append]
    cases pat with
    | nil => exact absurd rfl hpat
    | cons p0 pr =>
      rw [List.cons_append]
      simp only [replaceFirst]
      rw [if_pos (by rw [← List.cons_append]; exact prefixOf_append (p0 :: pr) b)]
      rw [← List.cons_append, drop_len_append]
  | cons c a' ih =>
    intro b hf
    have hplen : 1 ≤ pat.length := by
      cases pat with
      | nil => exact absurd rfl hpat
      | cons p ps => simp
    have hlen : (c :: a').length + pat.length - 1 =
        (a'.length + pat.length - 1) + 1 := by
      simp only [List.length_cons]; omega
    rw [List.cons_append] at hf ⊢
    rw [hlen, List.take_succ_cons] at hf
    simp only [includesJS, Bool.or_eq_false_iff] at hf
    obtain ⟨hf1, hf2⟩ := hf
    have hnp : pat.isPrefixOf (c :: (a' ++ (pat ++ b))) = false := by
      cases hx : pat.isPrefixOf (c :: (a' ++ (pat ++ b))) with
      | false => rfl
      | true =>
        have h2 := prefixOf_take
          (n := (a'.length + pat.length - 1) + 1)
          (l := c :: (a' ++ (pat ++ b))) (by omega) hx
        rw [List.take_succ_cons, hf1] at h2
        cases h2
    simp only [replaceFirst]
    rw [if_neg (by simp [hnp])]
    rw [ih b hf2, List.cons_append]

/-- Claim C2 counterexample: for a URL containing `"localhost"` twice,
the normalization of `config.js` (JavaScript `String.replace` with a
string pattern) rewrites only the first occurrence; the result still
contains `"localhost"` even though the substituted hostname does not,
and differs from the replace-every-occurrence result the claim
describes. -/
theorem normalizeUrl_counterexample :
    normalizeUrl (js "example.org") (js "http://localhost/localhost") =
      js "http://example.org/localhost" ∧
    includesJS localhostStr
      (normalizeUrl (js "example.org") (js "http://localhost/localhost")) =
      true ∧
    includesJS localhostStr (js "example.org") = false ∧
    normalizeUrl (js "example.org") (js "http://localhost/localhost") ≠
      replaceAllSpec localhostStr (js "example.org")
        (js "http://localhost/localhost") := by
  refine ⟨by decide, by decide, by decide, by decide⟩

/-- Claim C2 (amended): after a successful load the first occurrence of
the literal substring `"localhost"` in a URL field is replaced by the
current hostname, the rest of the address being preserved, and a URL
not containing `"localhost"` is left byte-identical (every `mainUrl`,
`url` and present `alt_url` field goes through this `normalizeUrl`,
see `normalizeConfig`). -/
theorem normalizeUrl_amended (host u a b : JStr) :
    (includesJS localhostStr u = false → normalizeUrl host u = u) ∧
    (u = a ++ (localhostStr ++ b) →
     includesJS localhostStr
       (List.take (a.length + localhostStr.length - 1) u) = false →
     normalizeUrl host u = a ++ (host ++ b)) := by
  constructor
  · intro h; simp [normalizeUrl, h]
  · intro hdec hf
    subst hdec
    have hin : includesJS localhostStr (a ++ (localhostStr ++ b)) = true :=
      includes_append localhostStr a b
    simp only [normalizeUrl, hin, if_true]
    exact replaceFirst_at localhostStr host (by decide) a b hf

/-- Witness for the amended C2 at the specification's own example:
`"http://localhost:8080"` with current hostname `"example.org"`
normalizes to `"http://example.org:8080"`. -/
theorem normalizeUrl_amended_witness :
    ((js "http://localhost:8080" : JStr) =
        js "http://" ++ (localhostStr ++ js ":8080") ∧
     includesJS localhostStr
       (List.take ((js "http://").length + localhostStr.length - 1)
         (js "http://localhost:8080")) = false) ∧
    normalizeUrl (js "example.org") (js "http://localhost:8080") =
      js "http://" ++ (js "example.org" ++ js ":8080") :=
  ⟨⟨by decide, by decide⟩,
   (normalizeUrl_amended (js "example.org") (js "http://localhost:8080")
      (js "http://") (js ":8080")).2 (by decide) (by decide)⟩

/-- Claim C3: the `onload` handler stores a found configuration with a
single assignment (so the observable `config` is either the fully old
or the fully new value) and resolves; when the fetched script exposes
no configuration, or the script fails to load, the previously stored
configuration is retained unchanged and the UI switches to the error
screen. -/
theorem configSwap_atomic (s : DashState) (cfg : Config)
    (hm : s.mounted = true) :
    (scriptOnload s (some cfg)).1.config = some cfg ∧
    (scriptOnload s (some cfg)).2 = true ∧
    (scriptOnload s none).1.config = s.config ∧
    (scriptOnload s none).2 = false ∧
    (scriptOnerror s).config = s.config ∧
    uiView (scriptOnload s none).1 = UI.errorView ∧
    uiView (scriptOnerror s) = UI.errorView := by
  refine ⟨rfl, rfl, rfl, rfl, rfl, ?_, ?_⟩
  · simp [uiView, scriptOnload, hm]
  · simp [uiView, scriptOnerror, hm]

/-- Witness for C3 at a mounted state and the scenario configuration. -/
theorem configSwap_atomic_witness :
    mountedState.mounted = true ∧
    ((scriptOnload mountedState (some cfgGit)).1.config = some cfgGit ∧
     (scriptOnload mountedState (some cfgGit)).2 = true ∧
     (scriptOnload mountedState none).1.config = mountedState.config ∧
     (scriptOnload mountedState none).2 = false ∧
     (scriptOnerror mountedState).config = mountedState.config ∧
     uiView (scriptOnload mountedState none).1 = UI.errorView ∧
     uiView (scriptOnerror mountedState) = UI.errorView) :=
  ⟨by decide, configSwap_atomic mountedState cfgGit (by decide)⟩

/-- Claim C4 counterexample: for the whitespace-only query `" "` the
rendered main area is the search view with an empty result list, not
the active tab's content — the gate tests the raw query's truthiness,
not the trimmed query. -/
theorem searchGate_counterexample :
    mainContent cfgGit (js "a") (js " ") = MainView.searchView [] ∧
    mainContent cfgGit (js "a") (js " ") ≠
      MainView.tabContent (activeTabData cfgGit (js "a")) ∧
    trimJS (js " ") = [] := by
  refine ⟨by decide, by decide, by decide⟩

/-- Claim C4 (amended): search mode (tab content suppressed in favor of
the result list) is active exactly when the raw query string is
non-empty; the empty query falls back to the active tab's content, and
a whitespace-only non-empty query shows the search view with an empty
result list. -/
theorem searchGate_amended (cfg : Config) (key q : JStr) :
    (q = [] → mainContent cfg key q = MainView.tabContent (activeTabData cfg key)) ∧
    (q ≠ [] → mainContent cfg key q = MainView.searchView (searchResults cfg q)) ∧
    (q ≠ [] → trimJS q = [] → mainContent cfg key q = MainView.searchView []) := by
  refine ⟨?_, ?_, ?_⟩
  · intro h; simp [mainContent, h]
  · intro h; simp [mainContent, h]
  · intro h ht; simp [mainContent, h, searchResults, ht]

/-- Witness for the amended C4 at the whitespace-only query `" "`. -/
theorem searchGate_amended_witness :
    ((js " " : JStr) ≠ [] ∧ trimJS (js " ") = []) ∧
    mainContent cfgGit (js "a") (js " ") = MainView.searchView [] :=
  ⟨⟨by decide, by decide⟩,
   (searchGate_amended cfgGit (js "a") (js " ")).2.2 (by decide) (by decide)⟩

/-- Claim C5: evaluation of `highlightText` at the failing input.  The
query `"("` is non-whitespace, so the guard does not return early, and
the constructed pattern `"(()"` is rejected by the regular-expression
grammar: `new RegExp` throws a `SyntaxError` inside render (modelled
as `none`) — the highlighting function is not total over arbitrary
query strings. -/
theorem highlightText_crash :
    highlightText (js "Plex") (js "(") = none ∧
    (trimJS (js "(")).isEmpty = false := by
  refine ⟨by decide, by decide⟩

/-- Claim C6: on a successful load, if no tab was selected (`activeTab`
empty) the first tab's key becomes active; if a tab was already
selected the key is left unchanged; and a key absent from the
configuration makes `activeTabData` `none` (the render guards on it,
so nothing is dereferenced). -/
theorem activeTab_policy (s : DashState) (cfg : Config) (t : Tab)
    (ts : List Tab) :
    (cfg.tabs = t :: ts → s.activeTab = [] →
      (scriptOnload s (some cfg)).1.activeTab = t.key) ∧
    (s.activeTab ≠ [] →
      (scriptOnload s (some cfg)).1.activeTab = s.activeTab) ∧
    (s.activeTab ∉ cfg.tabs.map Tab.key →
      activeTabData cfg s.activeTab = none) := by
  refine ⟨?_, ?_, ?_⟩
  · intro htabs hempty
    simp [scriptOnload, headKey, htabs, hempty]
  · intro hne
    simp [scriptOnload, hne]
  · intro hnot
    unfold activeTabData
    rw [List.find?_eq_none]
    intro tb htb
    simp only [beq_iff_eq]
    intro hkey
    exact hnot (by rw [← hkey]; exact List.mem_map_of_mem Tab.key htb)

/-- Witness for C6: fresh selection picks tab `a`'s key; a non-empty
selection `"zz"` survives a reload, and since `"zz"` is not a key of
the configuration, `activeTabData` is `none`. -/
theorem activeTab_policy_witness :
    (cfgGit.tabs = tabA :: [tabB] ∧ mountedState.activeTab = [] ∧
      (scriptOnload mountedState (some cfgGit)).1.activeTab = tabA.key) ∧
    ((js "zz" : JStr) ≠ [] ∧
     (scriptOnload { mountedState with activeTab := js "zz" }
        (some cfgGit)).1.activeTab = js "zz" ∧
     (js "zz" : JStr) ∉ cfgGit.tabs.map Tab.key ∧
     activeTabData cfgGit (js "zz") = none) :=
  ⟨⟨by decide, by decide,
    (activeTab_policy mountedState cfgGit tabA [tabB]).1 (by decide) (by decide)⟩,
   by decide,
   (activeTab_policy { mountedState with activeTab := js "zz" } cfgGit tabA
      [tabB]).2.1 (by decide),
   by decide,
   (activeTab_policy { mountedState with activeTab := js "zz" } cfgGit tabA
      [tabB]).2.2 (by decide)⟩

/-- Claim C7: a query that is empty or made only of whitespace
characters yields the empty result sequence. -/
theorem searchResults_whitespace (cfg : Config) (q : JStr)
    (h : ∀ c ∈ q, jsWS c = true) : searchResults cfg q = [] := by
  have h1 : q.dropWhile jsWS = [] := by
    induction q with
    | nil => rfl
    | cons c t ih =>
      simp [List.dropWhile_cons, h c (List.mem_cons_self c t),
        ih (fun x hx => h x (List.mem_cons_of_mem c hx))]
  have h2 : trimJS q = [] := by simp [trimJS, h1]
  simp [searchResults, h2]

/-- Witness for C7 at the two-space query. -/
theorem searchResults_whitespace_witness :
    (∀ c ∈ (js "  " : JStr), jsWS c = true) ∧
    searchResults cfgGit (js "  ") = [] :=
  ⟨by decide, searchResults_whitespace cfgGit (js "  ") (by decide)⟩

/-- Claim C8: when the secure clipboard path is unavailable and the
`execCommand` fallback fails, `copyToClipboard` ends in the
`CopyFailed` outcome (the toast instructing manual copy), no exception
escapes (the embedding is a total function returning the outcome), and
the component state — configuration included — is returned unchanged. -/
theorem copyToClipboard_failure (env : ClipEnv) (s : DashState) (url : JStr)
    (h1 : env.secureClipboard = false) (h2 : env.execCopyOk = false) :
    copyToClipboard env s url = (s, CopyOutcome.copyFailed) := by
  simp [copyToClipboard, h1, h2]

/-- Witness for C8 on the clipboard-less platform. -/
theorem copyToClipboard_failure_witness :
    (noClipEnv.secureClipboard = false ∧ noClipEnv.execCopyOk = false) ∧
    copyToClipboard noClipEnv mountedState (js "http://x") =
      (mountedState, CopyOutcome.copyFailed) :=
  ⟨⟨by decide, by decide⟩,
   copyToClipboard_failure noClipEnv mountedState (js "http://x")
     (by decide) (by decide)⟩

/-- Claim C9 counterexample: a reload is triggered while the first load
is pending; the reload's script delivers first (`cfgGit`), the stale
first load delivers afterwards (`cfgOneTab`).  Each `onload` calls
`setConfig` unconditionally — there is no request counter — so the
final configuration is the stale one, not the newer load's result. -/
theorem staleLoad_counterexample :
    (runEvents initialState
        [LoadEvent.start, LoadEvent.start,
         LoadEvent.deliver (some cfgGit),
         LoadEvent.deliver (some cfgOneTab)]).config = some cfgOneTab ∧
    cfgOneTab ≠ cfgGit := by
  refine ⟨by decide, by decide⟩

/-- Claim C9 (amended): the policy actually implemented is "last
completed load wins": whatever sequence of load events precedes it,
the configuration delivered by the last completed load is the one left
in memory, wholesale, with loading over — state is replaced, not
corrupted, but an older in-flight load completing last overwrites a
newer result. -/
theorem lastCompletedWins (s : DashState) (es : List LoadEvent)
    (cfg : Config) :
    (runEvents s (es ++ [LoadEvent.deliver (some cfg)])).config = some cfg ∧
    (runEvents s (es ++ [LoadEvent.deliver (some cfg)])).loading = false := by
  constructor <;> simp [runEvents, List.foldl_append, applyEvent, scriptOnload]

/-- Claim C10: loading a configuration with a present but empty `tabs`
sequence resolves, stores the configuration, selects no active tab
(the key stays the empty string), reaches the ready screen, and the
active-tab projection is `none`, so the ready screen renders no tab
content — no access fails. -/
theorem emptyTabs_load (s : DashState) (h1 : s.activeTab = [])
    (h2 : s.mounted = true) :
    (scriptOnload (loadStart s) (some cfgEmpty)).2 = true ∧
    (scriptOnload (loadStart s) (some cfgEmpty)).1.config = some cfgEmpty ∧
    (scriptOnload (loadStart s) (some cfgEmpty)).1.activeTab = [] ∧
    uiView (scriptOnload (loadStart s) (some cfgEmpty)).1 = UI.readyView ∧
    activeTabData cfgEmpty [] = none ∧
    mainContent cfgEmpty [] [] = MainView.tabContent none := by
  refine ⟨rfl, rfl, ?_, ?_, by decide, by decide⟩
  · simp [scriptOnload, loadStart, cfgEmpty, h1]
  · simp [uiView, scriptOnload, loadStart, h2]

/-- Witness for C10 from the freshly mounted state. -/
theorem emptyTabs_load_witness :
    (mountedState.activeTab = [] ∧ mountedState.mounted = true) ∧
    ((scriptOnload (loadStart mountedState) (some cfgEmpty)).2 = true ∧
     (scriptOnload (loadStart mountedState) (some cfgEmpty)).1.config =
       some cfgEmpty ∧
     (scriptOnload (loadStart mountedState) (some cfgEmpty)).1.activeTab = [] ∧
     uiView (scriptOnload (loadStart mountedState) (some cfgEmpty)).1 =
       UI.readyView ∧
     activeTabData cfgEmpty [] = none ∧
     mainContent cfgEmpty [] [] = MainView.tabContent none) :=
  ⟨⟨by decide, by decide⟩,
   emptyTabs_load mountedState (by decide) (by decide)⟩

end ServerShelf

